import Mathlib

/-!
Verification of the daily-diet meals API (src/routes/meals.ts).

The relational store is modelled as a list of meal rows; each Fastify route
handler becomes a pure function from the acting user, the store and the
request data to a response (status, body) and, for mutating routes, the
resulting store.  Machine-level concerns (the knex query builder, SQLite)
are modelled by their observable list semantics: `where` is `filter`/`find?`,
`insert` appends, `update`/`delete` act on every row matching the predicate,
`orderBy date desc` is a sort by descending date.
-/

namespace DailyDiet

/-- A row of the `meals` table: columns `id`, `user_id`, `name`,
`description`, `is_on_diet`, `date` (integer epoch value). -/
structure Meal where
  id : String
  user_id : String
  name : String
  description : String
  is_on_diet : Bool
  date : Int
deriving DecidableEq, Repr

/-- The `meals` table. -/
abbrev Store := List Meal

/-- A JavaScript `Date` value as the handlers observe it: `time` is
`getTime()` (epoch milliseconds) and `day` is `getDate()` (the day-of-month
component, which in JavaScript is always between 1 and 31). -/
structure JSDate where
  time : Int
  day : Nat
deriving DecidableEq, Repr

/-- The range contract of JavaScript `Date.prototype.getDate`. -/
def JSDate.validDay (d : JSDate) : Prop := 1 ≤ d.day ∧ d.day ≤ 31

instance (d : JSDate) : Decidable d.validDay := by
  unfold JSDate.validDay; infer_instance

/-- Parsed body of `POST /` (zod schema `createMealBodySchema`): all four
fields required. -/
structure CreateInput where
  name : String
  description : String
  isOnDiet : Bool
  date : JSDate
deriving DecidableEq, Repr

/-- Parsed body of `PUT /:id` (zod schema `editMealBodySchema`): all four
fields optional. -/
structure UpdateInput where
  name : Option String
  description : Option String
  isOnDiet : Option Bool
  date : Option JSDate
deriving DecidableEq, Repr

/-- One character position of zod's `z.string().uuid()` check: hyphens at
positions 8, 13, 18, 23 and hexadecimal digits elsewhere. -/
def isUUIDChar (i : Nat) (c : Char) : Bool :=
  if i = 8 ∨ i = 13 ∨ i = 18 ∨ i = 23 then c = '-'
  else c.isDigit || ('a' ≤ c && c ≤ 'f') || ('A' ≤ c && c ≤ 'F')

/-- Syntactic UUID validity, as checked by zod's `z.string().uuid()` on the
`:id` path parameter: 36 characters in the 8-4-4-4-12 hyphenated hex shape. -/
def isValidUUID (str : String) : Bool :=
  str.length = 36 && (str.toList.enum.all fun p => isUUIDChar p.1 p.2)

/-- `knex('meals').where({ id }).first()`. -/
def findMeal (s : Store) (idStr : String) : Option Meal :=
  s.find? fun m => m.id == idStr

/-- Result of `POST /`: status and the store after the insert. -/
structure CreateResult where
  status : Nat
  store : Store
deriving Repr

/-- `POST /` handler: inserts one row with a freshly generated id (the
`randomUUID()` call is modelled by the `freshId` argument), owner
`request.user.id`, and `date` stored as `date.getTime()`; replies 201 with
no body. -/
def createMeal (u : String) (s : Store) (input : CreateInput)
    (freshId : String) : CreateResult :=
  { status := 201
    store := s ++ [{ id := freshId, user_id := u, name := input.name,
                     description := input.description,
                     is_on_diet := input.isOnDiet,
                     date := input.date.time }] }

/-- Result of `PUT /:id`: status, optional JSON error body modelled as a
(field-name, value) pair, and the store after the call. -/
structure UpdateResult where
  status : Nat
  body : Option (String × String)
  store : Store
deriving Repr

/-- The column values written by the `update` statement of `PUT /:id`:
`name: name ?? meal.name`, `description: description ?? meal.description`,
`is_on_diet: isOnDiet ?? meal.is_on_diet`, `date: date?.getDate() ?? meal.date`,
where `meal` is the row first found by id. The row `m` keeps its own `id`
and `user_id` (those columns are not in the update payload). -/
def applyUpdateFields (input : UpdateInput) (meal : Meal) (m : Meal) : Meal :=
  { m with
    name := input.name.getD meal.name
    description := input.description.getD meal.description
    is_on_diet := input.isOnDiet.getD meal.is_on_diet
    date := (input.date.map fun d => (d.day : Int)).getD meal.date }

/-- `PUT /:id` handler: validate the id as a UUID (zod throws, surfaced as
HTTP 400, before any query), look the meal up by id alone, reply
404 `{message: "Meal not found"}` when absent, otherwise update every row
matching the id and reply 201 with no body. -/
def updateMeal (u : String) (s : Store) (idStr : String)
    (input : UpdateInput) : UpdateResult :=
  if isValidUUID idStr then
    match findMeal s idStr with
    | none => { status := 404, body := some ("message", "Meal not found"), store := s }
    | some meal =>
      { status := 201
        body := none
        store := s.map fun m =>
          if m.id == idStr then applyUpdateFields input meal m else m }
  else
    { status := 400, body := none, store := s }

/-- Result of `GET /:id`: status, the meal on success, the JSON error body
(field-name, value) on failure. -/
structure GetResult where
  status : Nat
  meal : Option Meal
  err : Option (String × String)
deriving DecidableEq, Repr

/-- `GET /:id` handler: validate the id as a UUID (HTTP 400 before any
query), look the meal up by id alone, reply 404 `{error: "Meal not found"}`
when absent, otherwise 200 with the meal. -/
def getMeal (u : String) (s : Store) (idStr : String) : GetResult :=
  if isValidUUID idStr then
    match findMeal s idStr with
    | none => { status := 404, meal := none, err := some ("error", "Meal not found") }
    | some meal => { status := 200, meal := some meal, err := none }
  else
    { status := 400, meal := none, err := none }

/-- Result of `DELETE /:id`: status, optional JSON error body, and the store
after the call. -/
structure DeleteResult where
  status : Nat
  err : Option (String × String)
  store : Store
deriving Repr

/-- `DELETE /:id` handler: validate the id as a UUID (HTTP 400 before any
query), look the meal up by id alone, reply 404 `{error: "Meal not found"}`
when absent, otherwise delete every row matching the id and reply 204 with
no body. -/
def deleteMeal (u : String) (s : Store) (idStr : String) : DeleteResult :=
  if isValidUUID idStr then
    match findMeal s idStr with
    | none => { status := 404, err := some ("error", "Meal not found"), store := s }
    | some _ =>
      { status := 204
        err := none
        store := s.filter fun m => !(m.id == idStr) }
  else
    { status := 400, err := none, store := s }

/-- `orderBy('date', 'desc')`: descending-date order on meal rows. -/
def dateDesc (a b : Meal) : Prop := b.date ≤ a.date

instance : DecidableRel dateDesc := fun a b => Int.decLe b.date a.date

instance : IsTotal Meal dateDesc :=
  ⟨fun a b => Int.le_total b.date a.date⟩

instance : IsTrans Meal dateDesc :=
  ⟨fun _ _ _ hab hbc => le_trans hbc hab⟩

/-- `GET /` handler: `knex('meals').where({ user_id }).orderBy('date', 'desc')` —
the acting user's rows, sorted by descending date. -/
def listMeals (u : String) (s : Store) : List Meal :=
  List.insertionSort dateDesc (s.filter fun m => m.user_id == u)

/-- One step of the `totalMeals.reduce` accumulator of `GET /metrics`:
the pair is (bestOnDietSequence, currentSequence); an on-diet meal
increments `currentSequence`, an off-diet meal resets it to 0, and the
best value is raised whenever the current one exceeds it. -/
def streakStep (acc : Nat × Nat) (m : Meal) : Nat × Nat :=
  let cur := if m.is_on_diet then acc.2 + 1 else 0
  (if cur > acc.1 then cur else acc.1, cur)

/-- Response of `GET /metrics`. -/
structure MetricsResult where
  totalMeals : Nat
  totalMealsOnDiet : Nat
  totalMealsOffDiet : Nat
  bestOnDietSequence : Nat
deriving DecidableEq, Repr

/-- `GET /metrics` handler: the full date-descending list of the acting
user's meals, the two aggregate counts (`where user_id, is_on_diet` with
`count('id')`), and the streak reduce over the ordered list. -/
def metrics (u : String) (s : Store) : MetricsResult :=
  let allMeals := listMeals u s
  { totalMeals := allMeals.length
    totalMealsOnDiet := (s.filter fun m => m.user_id == u && m.is_on_diet).length
    totalMealsOffDiet := (s.filter fun m => m.user_id == u && !m.is_on_diet).length
    bestOnDietSequence := (allMeals.foldl streakStep (0, 0)).1 }

/-- Transliteration of the specification's wording for `bestOnDietSequence`
(companion definition for the refinement claim, written from the spec, not
the code): maintain a running consecutive-count, increment it on an on-diet
entry, reset it to zero on an off-diet entry, and track the maximum
observed.  The pair is (maximum observed, running count). -/
def specStep (acc : Nat × Nat) (f : Bool) : Nat × Nat :=
  let cur := if f then acc.2 + 1 else 0
  (max acc.1 cur, cur)

/-- The maximum running count obtained by scanning a flag sequence, per the
specification's description of `bestOnDietSequence`. -/
def specBestRun (flags : List Bool) : Nat :=
  (flags.foldl specStep (0, 0)).1

/-- A syntactically valid UUID used by concrete instances. -/
def aliceId : String := "aaaaaaaa-aaaa-aaaa-aaaa-aaaaaaaaaaaa"

/-- A meal owned by user `alice`, used to exhibit cross-user access. -/
def aliceMeal : Meal :=
  { id := aliceId, user_id := "alice", name := "Lunch",
    description := "Salad", is_on_diet := true, date := 500 }

/-- A syntactically valid UUID used by concrete instances. -/
def exId : String := "11111111-1111-1111-1111-111111111111"

/-- A meal of user `u1`, used by concrete instances. -/
def exMeal : Meal :=
  { id := exId, user_id := "u1", name := "Dinner",
    description := "Rice", is_on_diet := false, date := 900 }

/-- Shorthand for building a `u1` meal row of the metrics example. -/
def mkMeal (i : String) (d : Int) (f : Bool) : Meal :=
  { id := i, user_id := "u1", name := "m", description := "d",
    is_on_diet := f, date := d }

/-- The store of the specification's metrics example: six meals of user `u1`
whose on-diet flags, read in descending date order, are
`[true, true, false, true, true, true]`, plus one meal of another user. -/
def exMetricsStore : Store :=
  [ mkMeal "id3" 400 false, mkMeal "id1" 600 true, mkMeal "id5" 200 true,
    mkMeal "id2" 500 true, mkMeal "id6" 100 true, mkMeal "id4" 300 true,
    { id := "idx", user_id := "u2", name := "m", description := "d",
      is_on_diet := false, date := 1000 } ]

/-- An update body supplying only `date`, used by concrete instances. -/
def exDateInput : UpdateInput :=
  { name := none, description := none, isOnDiet := none,
    date := some { time := 1700000000000, day := 15 } }

/-- The empty update body (no fields supplied). -/
def exEmptyInput : UpdateInput :=
  { name := none, description := none, isOnDiet := none, date := none }

/-! ### Helper lemmas -/

lemma streakStep_eq_specStep (acc : Nat × Nat) (m : Meal) :
    streakStep acc m = specStep acc m.is_on_diet := by
  rcases acc with ⟨b, c⟩
  cases h : m.is_on_diet
  · simp [streakStep, specStep, h]
  · simp only [streakStep, specStep, h, if_pos, Prod.mk.injEq, if_true]
    refine ⟨?_, trivial⟩
    rw [Nat.max_def]
    split_ifs <;> omega

lemma foldl_streakStep_eq (l : List Meal) (acc : Nat × Nat) :
    l.foldl streakStep acc = (l.map Meal.is_on_diet).foldl specStep acc := by
  induction l generalizing acc with
  | nil => rfl
  | cons m t ih => simp [streakStep_eq_specStep, ih]

lemma foldl_specStep_fst_le (l : List Bool) : ∀ b c : Nat,
    (l.foldl specStep (b, c)).1 ≤ max b (c + l.count true) := by
  induction l with
  | nil => intro b c; simp
  | cons f t ih =>
    intro b c
    cases f
    · have h := ih b 0
      have e : specStep (b, c) false = (b, 0) := by simp [specStep]
      have e2 : (false :: t).count true = t.count true := by simp
      rw [List.foldl_cons, e, e2]
      omega
    · have h := ih (max b (c + 1)) (c + 1)
      have e : specStep (b, c) true = (max b (c + 1), c + 1) := by simp [specStep]
      have e2 : (true :: t).count true = t.count true + 1 := by simp
      rw [List.foldl_cons, e, e2]
      omega

lemma specBestRun_le_count (l : List Bool) : specBestRun l ≤ l.count true := by
  have h := foldl_specStep_fst_le l 0 0
  simpa [specBestRun] using h

lemma applyUpdateFields_id (input : UpdateInput) (meal m : Meal) :
    (applyUpdateFields input meal m).id = m.id := rfl

lemma findMeal_map_if (s : Store) (idStr : String) (g : Meal → Meal)
    (hg : ∀ m, (g m).id = m.id) :
    findMeal (s.map fun m => if m.id == idStr then g m else m) idStr
      = (findMeal s idStr).map g := by
  induction s with
  | nil => rfl
  | cons m t ih =>
    by_cases h : m.id = idStr
    · simp [findMeal, h, hg]
    · simp only [List.map_cons]
      rw [show (if (m.id == idStr) = true then g m else m) = m by simp [h]]
      unfold findMeal at ih ⊢
      rw [List.find?_cons_of_neg _ (by simp [h]),
        List.find?_cons_of_neg _ (by simp [h])]
      exact ih

lemma filter_ne_map_if (s : Store) (idStr : String) (g : Meal → Meal)
    (hg : ∀ m, (g m).id = m.id) :
    ((s.map fun m => if m.id == idStr then g m else m).filter
        fun m => !(m.id == idStr))
      = s.filter fun m => !(m.id == idStr) := by
  induction s with
  | nil => rfl
  | cons m t ih =>
    by_cases h : m.id = idStr
    · simp only [List.map_cons]
      rw [show (if (m.id == idStr) = true then g m else m) = g m by simp [h]]
      rw [List.filter_cons, List.filter_cons, if_neg (by simp [hg, h]),
        if_neg (by simp [h])]
      exact ih
    · simp only [List.map_cons]
      rw [show (if (m.id == idStr) = true then g m else m) = m by simp [h]]
      rw [List.filter_cons, List.filter_cons, if_pos (by simp [h]),
        if_pos (by simp [h])]
      rw [ih]

lemma updateMeal_found (u : String) (s : Store) (idStr : String)
    (input : UpdateInput) (meal : Meal)
    (hvalid : isValidUUID idStr = true)
    (hfind : findMeal s idStr = some meal) :
    updateMeal u s idStr input
      = { status := 201, body := none,
          store := s.map fun m =>
            if m.id == idStr then applyUpdateFields input meal m else m } := by
  simp [updateMeal, hvalid, hfind]

/-! ### Claims -/

/-- C1: For every acting user and every store state, `GET /metrics` returns
`bestOnDietSequence` equal to the maximum running count obtained by scanning
the user's meals in descending date order, incrementing on each on-diet meal
and resetting to zero on each off-diet meal; in particular, for the flag
sequence `[true, true, false, true, true, true]` in scan order the result is
3, and for zero meals it is 0. -/
theorem metrics_best_sequence_spec :
    (∀ (u : String) (s : Store),
        (metrics u s).bestOnDietSequence
          = specBestRun ((listMeals u s).map Meal.is_on_diet))
    ∧ (listMeals "u1" exMetricsStore).map Meal.is_on_diet
        = [true, true, false, true, true, true]
    ∧ (metrics "u1" exMetricsStore).bestOnDietSequence = 3
    ∧ specBestRun [true, true, false, true, true, true] = 3
    ∧ (∀ u : String, (metrics u []).bestOnDietSequence = 0) := by
  refine ⟨?_, by decide, by decide, by decide, fun u => rfl⟩
  intro u s
  simp [metrics, specBestRun, foldl_streakStep_eq]

/-- C2: When an Update supplies a `date` field on an existing meal id, the
persisted `date` column is set to only the day-of-month component of the
supplied date (an integer 1–31, given JavaScript's `getDate` contract), not
to the full timestamp; when `date` is omitted the stored value is
unchanged. -/
theorem update_date_day_of_month (u : String) (s : Store) (idStr : String)
    (input : UpdateInput) (meal : Meal)
    (hvalid : isValidUUID idStr = true)
    (hfind : findMeal s idStr = some meal) :
    findMeal (updateMeal u s idStr input).store idStr
        = some (applyUpdateFields input meal meal)
    ∧ (∀ d : JSDate, input.date = some d →
        (applyUpdateFields input meal meal).date = (d.day : Int)
        ∧ (d.validDay → 1 ≤ (applyUpdateFields input meal meal).date
            ∧ (applyUpdateFields input meal meal).date ≤ 31))
    ∧ (input.date = none →
        (applyUpdateFields input meal meal).date = meal.date) := by
  rw [updateMeal_found u s idStr input meal hvalid hfind]
  refine ⟨?_, ?_, ?_⟩
  · rw [findMeal_map_if s idStr (applyUpdateFields input meal) (fun m => rfl),
      hfind]
    rfl
  · intro d hd
    refine ⟨by simp [applyUpdateFields, hd], fun hv => ?_⟩
    obtain ⟨h1, h2⟩ := hv
    constructor <;> simp [applyUpdateFields, hd] <;> omega
  · intro hd
    simp [applyUpdateFields, hd]

/-- Witness for C2 at a concrete store and date input. -/
theorem update_date_day_of_month_witness :
    findMeal (updateMeal "u1" [exMeal] exId exDateInput).store exId
        = some (applyUpdateFields exDateInput exMeal exMeal)
    ∧ (∀ d : JSDate, exDateInput.date = some d →
        (applyUpdateFields exDateInput exMeal exMeal).date = (d.day : Int)
        ∧ (d.validDay →
            1 ≤ (applyUpdateFields exDateInput exMeal exMeal).date
            ∧ (applyUpdateFields exDateInput exMeal exMeal).date ≤ 31))
    ∧ (exDateInput.date = none →
        (applyUpdateFields exDateInput exMeal exMeal).date = exMeal.date) :=
  update_date_day_of_month "u1" [exMeal] exId exDateInput exMeal
    (by decide) (by decide)

/-- C3: An Update on an existing meal id retains the prior stored value of
every omitted input field, modifies no row with a different id, acts as a
no-op on the store when no fields are supplied (given unique ids), and
replies 201 with no body. -/
theorem update_partial_frame (u : String) (s : Store) (idStr : String)
    (input : UpdateInput) (meal : Meal)
    (hvalid : isValidUUID idStr = true)
    (hfind : findMeal s idStr = some meal) :
    (updateMeal u s idStr input).status = 201
    ∧ (updateMeal u s idStr input).body = none
    ∧ ((updateMeal u s idStr input).store.filter fun m => !(m.id == idStr))
        = s.filter (fun m => !(m.id == idStr))
    ∧ findMeal (updateMeal u s idStr input).store idStr
        = some (applyUpdateFields input meal meal)
    ∧ (input.name = none → (applyUpdateFields input meal meal).name = meal.name)
    ∧ (input.description = none →
        (applyUpdateFields input meal meal).description = meal.description)
    ∧ (input.isOnDiet = none →
        (applyUpdateFields input meal meal).is_on_diet = meal.is_on_diet)
    ∧ (input.date = none → (applyUpdateFields input meal meal).date = meal.date)
    ∧ ((s.map Meal.id).Nodup → input = exEmptyInput →
        (updateMeal u s idStr input).store = s) := by
  rw [updateMeal_found u s idStr input meal hvalid hfind]
  refine ⟨rfl, rfl,
    filter_ne_map_if s idStr (applyUpdateFields input meal) (fun m => rfl),
    ?_, ?_, ?_, ?_, ?_, ?_⟩
  · rw [findMeal_map_if s idStr (applyUpdateFields input meal) (fun m => rfl),
      hfind]
    rfl
  · intro h; simp [applyUpdateFields, h]
  · intro h; simp [applyUpdateFields, h]
  · intro h; simp [applyUpdateFields, h]
  · intro h; simp [applyUpdateFields, h]
  · intro hnd hemp
    subst hemp
    have hmem : meal ∈ s := List.mem_of_find?_eq_some hfind
    have hid : meal.id = idStr := by
      have := List.find?_some hfind
      simpa using this
    have hpt : ∀ m ∈ s,
        (if m.id == idStr then applyUpdateFields exEmptyInput meal m else m)
          = id m := by
      intro m hm
      by_cases h : m.id = idStr
      · have hm_eq : m = meal :=
          List.inj_on_of_nodup_map hnd hm hmem (by rw [h, hid])
        subst hm_eq
        have hb : (m.id == idStr) = true := by simp [h]
        rw [if_pos hb]
        rfl
      · simp [h]
    show s.map _ = s
    rw [List.map_congr_left hpt, List.map_id]

/-- Witness for C3 at a concrete store and the empty update body. -/
theorem update_partial_frame_witness :
    (updateMeal "u1" [exMeal] exId exEmptyInput).status = 201
    ∧ (updateMeal "u1" [exMeal] exId exEmptyInput).body = none
    ∧ ((updateMeal "u1" [exMeal] exId exEmptyInput).store.filter
        fun m => !(m.id == exId))
        = List.filter (fun m => !(m.id == exId)) [exMeal]
    ∧ findMeal (updateMeal "u1" [exMeal] exId exEmptyInput).store exId
        = some (applyUpdateFields exEmptyInput exMeal exMeal)
    ∧ (exEmptyInput.name = none →
        (applyUpdateFields exEmptyInput exMeal exMeal).name = exMeal.name)
    ∧ (exEmptyInput.description = none →
        (applyUpdateFields exEmptyInput exMeal exMeal).description
          = exMeal.description)
    ∧ (exEmptyInput.isOnDiet = none →
        (applyUpdateFields exEmptyInput exMeal exMeal).is_on_diet
          = exMeal.is_on_diet)
    ∧ (exEmptyInput.date = none →
        (applyUpdateFields exEmptyInput exMeal exMeal).date = exMeal.date)
    ∧ (([exMeal].map Meal.id).Nodup → exEmptyInput = exEmptyInput →
        (updateMeal "u1" [exMeal] exId exEmptyInput).store = [exMeal]) :=
  update_partial_frame "u1" [exMeal] exId exEmptyInput exMeal
    (by decide) (by decide)

lemma delete_length (s : Store) (idStr : String) (meal : Meal)
    (hnd : (s.map Meal.id).Nodup) (hfind : findMeal s idStr = some meal) :
    (s.filter fun m => !(m.id == idStr)).length + 1 = s.length := by
  induction s with
  | nil => simp [findMeal] at hfind
  | cons m t ih =>
    rw [List.map_cons, List.nodup_cons] at hnd
    obtain ⟨hnotin, hndt⟩ := hnd
    by_cases h : m.id = idStr
    · have hkeep : t.filter (fun x => !(x.id == idStr)) = t := by
        rw [List.filter_eq_self]
        intro x hx
        have hne : x.id ≠ idStr := by
          intro he
          exact hnotin (by rw [h, ← he]; exact List.mem_map_of_mem Meal.id hx)
        simp [hne]
      rw [List.filter_cons, if_neg (by simp [h]), hkeep]
      simp
    · have hfind_t : findMeal t idStr = some meal := by
        unfold findMeal at hfind ⊢
        rwa [List.find?_cons_of_neg _ (by simp [h])] at hfind
      have hlen := ih hndt hfind_t
      rw [List.filter_cons, if_pos (by simp [h])]
      simp only [List.length_cons]
      omega

lemma filter_and_partition (s : Store) (u : String) :
    (s.filter fun m => m.user_id == u && m.is_on_diet).length
    + (s.filter fun m => m.user_id == u && !m.is_on_diet).length
    = (s.filter fun m => m.user_id == u).length := by
  induction s with
  | nil => rfl
  | cons m t ih =>
    by_cases h1 : m.user_id = u
    · cases h2 : m.is_on_diet
      · simp [List.filter_cons, h1, h2]
        omega
      · simp [List.filter_cons, h1, h2]
        omega
    · simp [List.filter_cons, h1, ih]

lemma count_true_flags (u : String) (s : Store) :
    ((listMeals u s).map Meal.is_on_diet).count true
      = (s.filter fun m => m.user_id == u && m.is_on_diet).length := by
  rw [List.count_eq_countP, List.countP_map]
  have h1 : ((fun b => b == true) ∘ Meal.is_on_diet)
      = fun m : Meal => m.is_on_diet := by
    funext m
    simp
  rw [h1, listMeals]
  rw [(List.perm_insertionSort dateDesc
    (s.filter fun m => m.user_id == u)).countP_eq (fun m => m.is_on_diet)]
  rw [List.countP_filter]
  have h2 : (fun m : Meal => m.is_on_diet && (m.user_id == u))
      = fun m : Meal => (m.user_id == u) && m.is_on_diet := by
    funext m
    exact Bool.and_comm _ _
  rw [h2, List.countP_eq_length_filter]

/-- C4: `GET /:id`, `PUT /:id` and `DELETE /:id` look the meal up by id
alone, without filtering by the acting user: their observable result and
effect are identical for any two acting users, so an acting user can read,
modify, or remove a meal owned by a different user (here `bob` operates on
`alice`'s meal). -/
theorem byId_not_owner_scoped :
    (∀ (u1 u2 : String) (s : Store) (idStr : String),
        getMeal u1 s idStr = getMeal u2 s idStr)
    ∧ (∀ (u1 u2 : String) (s : Store) (idStr : String) (input : UpdateInput),
        updateMeal u1 s idStr input = updateMeal u2 s idStr input)
    ∧ (∀ (u1 u2 : String) (s : Store) (idStr : String),
        deleteMeal u1 s idStr = deleteMeal u2 s idStr)
    ∧ aliceMeal.user_id = "alice"
    ∧ (getMeal "bob" [aliceMeal] aliceId).status = 200
    ∧ (getMeal "bob" [aliceMeal] aliceId).meal = some aliceMeal
    ∧ (updateMeal "bob" [aliceMeal] aliceId exEmptyInput).status = 201
    ∧ (deleteMeal "bob" [aliceMeal] aliceId).status = 204
    ∧ (deleteMeal "bob" [aliceMeal] aliceId).store = [] :=
  ⟨fun _ _ _ _ => rfl, fun _ _ _ _ _ => rfl, fun _ _ _ _ => rfl,
    rfl, by decide, by decide, by decide, by decide, by decide⟩

/-- C5: On a syntactically valid UUID with no matching meal, Update and
Delete reply 404 and leave the store unchanged; the 404 JSON body uses
field name `message` for Update and field name `error` for Get and
Delete. -/
theorem notFound_404 (u : String) (s : Store) (idStr : String)
    (hvalid : isValidUUID idStr = true)
    (hnone : findMeal s idStr = none) :
    (∀ input : UpdateInput,
        (updateMeal u s idStr input).status = 404
        ∧ (updateMeal u s idStr input).store = s
        ∧ (updateMeal u s idStr input).body = some ("message", "Meal not found"))
    ∧ (deleteMeal u s idStr).status = 404
    ∧ (deleteMeal u s idStr).store = s
    ∧ (deleteMeal u s idStr).err = some ("error", "Meal not found")
    ∧ (getMeal u s idStr).status = 404
    ∧ (getMeal u s idStr).err = some ("error", "Meal not found") := by
  refine ⟨fun input => ?_, ?_, ?_, ?_, ?_, ?_⟩ <;>
    simp [updateMeal, deleteMeal, getMeal, hvalid, hnone]

/-- Witness for C5 on the empty store and a valid UUID. -/
theorem notFound_404_witness :
    (∀ input : UpdateInput,
        (updateMeal "u1" [] exId input).status = 404
        ∧ (updateMeal "u1" [] exId input).store = []
        ∧ (updateMeal "u1" [] exId input).body
            = some ("message", "Meal not found"))
    ∧ (deleteMeal "u1" [] exId).status = 404
    ∧ (deleteMeal "u1" [] exId).store = []
    ∧ (deleteMeal "u1" [] exId).err = some ("error", "Meal not found")
    ∧ (getMeal "u1" [] exId).status = 404
    ∧ (getMeal "u1" [] exId).err = some ("error", "Meal not found") :=
  notFound_404 "u1" [] exId (by decide) (by decide)

/-- C6: Deleting a present meal id removes exactly the rows bearing that id
(exactly one row when ids are unique), replies 204 with no body, and a
subsequent Get on that id replies 404. -/
theorem delete_existing (u : String) (s : Store) (idStr : String)
    (meal : Meal)
    (hvalid : isValidUUID idStr = true)
    (hfind : findMeal s idStr = some meal) :
    (deleteMeal u s idStr).status = 204
    ∧ (deleteMeal u s idStr).err = none
    ∧ (∀ m : Meal, m ∈ (deleteMeal u s idStr).store ↔ m ∈ s ∧ m.id ≠ idStr)
    ∧ (getMeal u (deleteMeal u s idStr).store idStr).status = 404
    ∧ (getMeal u (deleteMeal u s idStr).store idStr).err
        = some ("error", "Meal not found")
    ∧ ((s.map Meal.id).Nodup →
        (deleteMeal u s idStr).store.length + 1 = s.length) := by
  have hdel : deleteMeal u s idStr
      = { status := 204, err := none,
          store := s.filter fun m => !(m.id == idStr) } := by
    simp [deleteMeal, hvalid, hfind]
  rw [hdel]
  have hnone : findMeal (s.filter fun m => !(m.id == idStr)) idStr = none := by
    unfold findMeal
    rw [List.find?_eq_none]
    intro x hx
    have hxp := (List.mem_filter.mp hx).2
    simpa using hxp
  refine ⟨rfl, rfl, ?_, by simp [getMeal, hvalid, hnone],
    by simp [getMeal, hvalid, hnone],
    fun hnd => delete_length s idStr meal hnd hfind⟩
  intro m
  simp [List.mem_filter]

/-- Witness for C6 on a two-row store. -/
theorem delete_existing_witness :
    (deleteMeal "u1" [exMeal, aliceMeal] exId).status = 204
    ∧ (deleteMeal "u1" [exMeal, aliceMeal] exId).err = none
    ∧ (∀ m : Meal, m ∈ (deleteMeal "u1" [exMeal, aliceMeal] exId).store
        ↔ m ∈ [exMeal, aliceMeal] ∧ m.id ≠ exId)
    ∧ (getMeal "u1" (deleteMeal "u1" [exMeal, aliceMeal] exId).store
        exId).status = 404
    ∧ (getMeal "u1" (deleteMeal "u1" [exMeal, aliceMeal] exId).store
        exId).err = some ("error", "Meal not found")
    ∧ (([exMeal, aliceMeal].map Meal.id).Nodup →
        (deleteMeal "u1" [exMeal, aliceMeal] exId).store.length + 1
          = ([exMeal, aliceMeal] : Store).length) :=
  delete_existing "u1" [exMeal, aliceMeal] exId exMeal (by decide) (by decide)

/-- C7: `GET /` returns exactly the meals whose `user_id` is the acting
user's id — as a permutation of the owner-filtered store, hence no meal of
any other user — sorted by date in non-increasing order. -/
theorem list_owned_sorted_desc : ∀ (u : String) (s : Store),
    (listMeals u s).Perm (s.filter fun m => m.user_id == u)
    ∧ (∀ m : Meal, m ∈ listMeals u s ↔ m ∈ s ∧ m.user_id = u)
    ∧ (listMeals u s).Pairwise (fun a b => b.date ≤ a.date) := by
  intro u s
  refine ⟨List.perm_insertionSort dateDesc _, ?_, ?_⟩
  · intro m
    rw [listMeals, List.mem_insertionSort, List.mem_filter]
    simp
  · exact List.sorted_insertionSort dateDesc _

/-- C8: Create followed by Get on the inserted id yields a record equal to
the input modulo the server-generated id and owner: `name`, `description`
and `isOnDiet` match the input, the id is the freshly generated UUID, the
owner is the acting user, and the stored date is the input date's epoch
value in milliseconds (`getTime()`). -/
theorem create_get_roundtrip (u : String) (s : Store) (input : CreateInput)
    (freshId : String)
    (hvalid : isValidUUID freshId = true)
    (hfresh : ∀ m ∈ s, m.id ≠ freshId) :
    (createMeal u s input freshId).status = 201
    ∧ (createMeal u s input freshId).store.length = s.length + 1
    ∧ (getMeal u (createMeal u s input freshId).store freshId).status = 200
    ∧ (getMeal u (createMeal u s input freshId).store freshId).meal
        = some { id := freshId, user_id := u, name := input.name,
                 description := input.description,
                 is_on_diet := input.isOnDiet,
                 date := input.date.time } := by
  have hfound : findMeal (createMeal u s input freshId).store freshId
      = some { id := freshId, user_id := u, name := input.name,
               description := input.description,
               is_on_diet := input.isOnDiet,
               date := input.date.time } := by
    unfold createMeal findMeal
    rw [List.find?_append]
    have h1 : s.find? (fun m => m.id == freshId) = none := by
      rw [List.find?_eq_none]
      intro x hx
      simpa using hfresh x hx
    rw [h1]
    simp
  refine ⟨rfl, by simp [createMeal], ?_, ?_⟩ <;>
    simp [getMeal, hvalid, hfound]

/-- Witness for C8 at a concrete input on a nonempty store. -/
theorem create_get_roundtrip_witness :
    (createMeal "u2" [exMeal] ⟨"Snack", "Apple", true, ⟨1700000000123, 15⟩⟩
        aliceId).status = 201
    ∧ (createMeal "u2" [exMeal] ⟨"Snack", "Apple", true, ⟨1700000000123, 15⟩⟩
        aliceId).store.length = ([exMeal] : Store).length + 1
    ∧ (getMeal "u2" (createMeal "u2" [exMeal]
        ⟨"Snack", "Apple", true, ⟨1700000000123, 15⟩⟩ aliceId).store
        aliceId).status = 200
    ∧ (getMeal "u2" (createMeal "u2" [exMeal]
        ⟨"Snack", "Apple", true, ⟨1700000000123, 15⟩⟩ aliceId).store
        aliceId).meal
        = some { id := aliceId, user_id := "u2", name := "Snack",
                 description := "Apple", is_on_diet := true,
                 date := (1700000000123 : Int) } :=
  create_get_roundtrip "u2" [exMeal] ⟨"Snack", "Apple", true, ⟨1700000000123, 15⟩⟩
    aliceId (by decide) (by decide)

/-- C9: For every acting user and store, the metrics satisfy
`0 ≤ bestOnDietSequence ≤ totalMealsOnDiet ≤ totalMeals` and
`totalMeals = totalMealsOnDiet + totalMealsOffDiet`. -/
theorem metrics_count_invariants : ∀ (u : String) (s : Store),
    0 ≤ (metrics u s).bestOnDietSequence
    ∧ (metrics u s).bestOnDietSequence ≤ (metrics u s).totalMealsOnDiet
    ∧ (metrics u s).totalMealsOnDiet ≤ (metrics u s).totalMeals
    ∧ (metrics u s).totalMeals
        = (metrics u s).totalMealsOnDiet + (metrics u s).totalMealsOffDiet := by
  intro u s
  have e1 : (metrics u s).totalMeals = (listMeals u s).length := rfl
  have e2 : (metrics u s).totalMealsOnDiet
      = (s.filter fun m => m.user_id == u && m.is_on_diet).length := rfl
  have e3 : (metrics u s).totalMealsOffDiet
      = (s.filter fun m => m.user_id == u && !m.is_on_diet).length := rfl
  have e4 : (metrics u s).bestOnDietSequence
      = ((listMeals u s).foldl streakStep (0, 0)).1 := rfl
  have hlen : (listMeals u s).length
      = (s.filter fun m => m.user_id == u).length := by
    simp [listMeals]
  have hpart := filter_and_partition s u
  have hbest : ((listMeals u s).foldl streakStep (0, 0)).1
      ≤ (s.filter fun m => m.user_id == u && m.is_on_diet).length := by
    rw [foldl_streakStep_eq, ← count_true_flags u s]
    exact specBestRun_le_count _
  refine ⟨Nat.zero_le _, ?_, ?_, ?_⟩
  · rw [e4, e2]
    exact hbest
  · rw [e2, e1, hlen]
    omega
  · rw [e1, e2, e3, hlen]
    omega

/-- C10: A Get or Delete whose id path parameter is not a syntactically
valid UUID fails schema validation with HTTP 400 before any store query —
the response does not depend on the store, no row is removed, and no
NotFound body is produced. -/
theorem invalid_uuid_rejected (u : String) (idStr : String)
    (hinv : isValidUUID idStr = false) :
    ∀ s t : Store,
      (getMeal u s idStr).status = 400
      ∧ getMeal u s idStr = getMeal u t idStr
      ∧ (getMeal u s idStr).meal = none
      ∧ (getMeal u s idStr).err = none
      ∧ (deleteMeal u s idStr).status = 400
      ∧ (deleteMeal u s idStr).store = s
      ∧ (deleteMeal u s idStr).err = none
      ∧ (deleteMeal u s idStr).err = (deleteMeal u t idStr).err
      ∧ (deleteMeal u s idStr).status = (deleteMeal u t idStr).status := by
  intro s t
  simp [getMeal, deleteMeal, hinv]

/-- Witness for C10 at a concrete malformed id. -/
theorem invalid_uuid_rejected_witness :
    (getMeal "u1" [exMeal] "not-a-uuid").status = 400
    ∧ getMeal "u1" [exMeal] "not-a-uuid" = getMeal "u1" [] "not-a-uuid"
    ∧ (getMeal "u1" [exMeal] "not-a-uuid").meal = none
    ∧ (getMeal "u1" [exMeal] "not-a-uuid").err = none
    ∧ (deleteMeal "u1" [exMeal] "not-a-uuid").status = 400
    ∧ (deleteMeal "u1" [exMeal] "not-a-uuid").store = [exMeal]
    ∧ (deleteMeal "u1" [exMeal] "not-a-uuid").err = none
    ∧ (deleteMeal "u1" [exMeal] "not-a-uuid").err
        = (deleteMeal "u1" [] "not-a-uuid").err
    ∧ (deleteMeal "u1" [exMeal] "not-a-uuid").status
        = (deleteMeal "u1" [] "not-a-uuid").status :=
  invalid_uuid_rejected "u1" "not-a-uuid" (by decide) [exMeal] []

end DailyDiet
